import Mathlib

/-!
# Verification of the base/withdrawer withdrawal orchestration engine

Shallow embedding of the Go sources of `base/withdrawer` and proofs of the
frozen claims about them.  The embedded pieces are:

* the dispute-game locator `FindEarliestGame` (withdraw/fpwithdraw.go),
* the top-level orchestration policy of `main` (main.go),
* the gas-configuration validation of `main` (main.go),
* `prepareGasOpts` and the inline gas-multiplier logic of
  `ProveWithdrawal` / `FinalizeWithdrawal` (withdraw/utils.go,
  withdraw/fpwithdraw.go),
* the confirmation poll loop `waitForConfirmation` (withdraw/utils.go),
* `txBlock` and `CheckIfProvable` (withdraw/utils.go, withdraw/fpwithdraw.go).

Remote chain state (contract reads, receipt lookups, simulations) is modelled
by explicit oracle arguments; `float64` values (the gas multiplier) are
modelled as rationals, and `uint64(float64(g) * m)` as the rational floor.
-/

namespace Withdrawer

/-! ## Game locator (withdraw/fpwithdraw.go, `FindEarliestGame`) -/

/-- The dispute-game registry as seen through `DisputeGameFactory`:
`gameCount` games at indices `0 .. gameCount-1`; `entry i = some b` means the
game at index `i` is of the respected game type and proposes L2 block `b`
(the first 32 bytes of its extra data), `entry i = none` means no
respected-type game sits at index `i`. -/
structure GameRegistry where
  gameCount : Nat
  entry : Nat → Option Nat

/-- Embeds `disputeGameFactoryContract.FindLatestGames(respectedGameType, i, 1)`:
the most recent respected-type game at an index at most `i`, together with its
index, or `none` when no respected-type game exists at an index at most `i`. -/
def findLatestGameAt (r : GameRegistry) : Nat → Option (Nat × Nat)
  | 0 =>
    match r.entry 0 with
    | some b => some (0, b)
    | none => none
  | i + 1 =>
    match r.entry (i + 1) with
    | some b => some (i + 1, b)
    | none => findLatestGameAt r i

/-- The `l2BlockNumber` a probe of the binary search computes at index `m`:
the block of the most recent respected-type game at an index at most `m`, and
`0` when the probe returns no entry (`l2BlockNumber := new(big.Int)`). -/
def probeBlock (r : GameRegistry) (m : Nat) : Nat :=
  match findLatestGameAt r m with
  | some g => g.2
  | none => 0

/-- The binary-search loop of `FindEarliestGame` (`for lo.Cmp(hi) < 0`),
with the iteration count made explicit as `fuel`: each iteration halves the
interval, so `hi - lo` iterations always suffice, and
`searchGo r inc (hi - lo) lo hi` is the final value of `lo`. -/
def searchGo (r : GameRegistry) (inc : Nat) : Nat → Nat → Nat → Nat
  | 0, lo, _ => lo
  | fuel + 1, lo, hi =>
    if lo < hi then
      let mid := (lo + hi) / 2
      if probeBlock r mid < inc then searchGo r inc fuel (mid + 1) hi
      else searchGo r inc fuel lo mid
    else lo

/-- The index at which the binary search of `FindEarliestGame` converges,
starting from `lo = 0`, `hi = gameCount - 1`. -/
def convergedIndex (r : GameRegistry) (inc : Nat) : Nat :=
  searchGo r inc (r.gameCount - 1) 0 (r.gameCount - 1)

/-- Embeds `FindEarliestGame` (withdraw/fpwithdraw.go): fails with
`"no games"` when the registry is empty, otherwise binary-searches
`[0, gameCount-1]` for the earliest respected-type game whose proposed L2
block is at least the withdrawal's inclusion block `inc`, fails with
`"no games found"` when the final probe returns no entry, and otherwise
returns the probed game as an `(index, l2Block)` pair. -/
def FindEarliestGame (r : GameRegistry) (inc : Nat) : Except String (Nat × Nat) :=
  if r.gameCount = 0 then .error "no games"
  else
    match findLatestGameAt r (convergedIndex r inc) with
    | none => .error "no games found"
    | some g => .ok g

/-- Index `i` holds a qualifying game: a respected-type game whose proposed
L2 block is at least the inclusion block. -/
def Qual (r : GameRegistry) (inc : Nat) (i : Nat) : Prop :=
  ∃ b, r.entry i = some b ∧ inc ≤ b

/-- The registry assigns non-decreasing proposed L2 blocks to respected-type
games as the index increases. -/
def Mono (r : GameRegistry) : Prop :=
  ∀ i j bi bj, i ≤ j → r.entry i = some bi → r.entry j = some bj → bi ≤ bj

/-- A registry whose respected-type games fully populate indices
`0 .. l.length - 1` with the proposed L2 blocks listed in `l`. -/
def ofList (l : List Nat) : GameRegistry :=
  ⟨l.length, fun i => l.get? i⟩

lemma findLatestGameAt_eq_none (r : GameRegistry) :
    ∀ m, findLatestGameAt r m = none ↔ ∀ k, k ≤ m → r.entry k = none := by
  intro m
  induction m with
  | zero =>
    cases h : r.entry 0 with
    | none =>
      simp only [findLatestGameAt, h]
      exact ⟨fun _ k hk => Nat.le_zero.1 hk ▸ h, fun _ => trivial⟩
    | some b =>
      simp only [findLatestGameAt, h]
      exact ⟨fun hc => Option.noConfusion hc,
        fun hall => absurd (hall 0 le_rfl) (by simp [h])⟩
  | succ i ih =>
    cases h : r.entry (i + 1) with
    | none =>
      simp only [findLatestGameAt, h]
      constructor
      · intro hn k hk
        rcases Nat.lt_or_ge k (i + 1) with hk' | hk'
        · exact (ih.1 hn) k (by omega)
        · have : k = i + 1 := by omega
          exact this ▸ h
      · intro hall
        exact ih.2 fun k hk => hall k (by omega)
    | some b =>
      simp only [findLatestGameAt, h]
      exact ⟨fun hc => Option.noConfusion hc,
        fun hall => absurd (hall (i + 1) le_rfl) (by simp [h])⟩

lemma findLatestGameAt_eq_some (r : GameRegistry) :
    ∀ m j b, findLatestGameAt r m = some (j, b) →
      j ≤ m ∧ r.entry j = some b ∧ ∀ k, j < k → k ≤ m → r.entry k = none := by
  intro m
  induction m with
  | zero =>
    intro j b hjb
    cases h : r.entry 0 with
    | none => rw [findLatestGameAt, h] at hjb; exact Option.noConfusion hjb
    | some b0 =>
      rw [findLatestGameAt, h] at hjb
      obtain ⟨hj, hb⟩ : j = 0 ∧ b0 = b := by
        have := Option.some.inj hjb
        exact ⟨(Prod.mk.injEq _ _ _ _ ▸ this).1.symm, (Prod.mk.injEq _ _ _ _ ▸ this).2⟩
      subst hj; subst hb
      exact ⟨le_rfl, h, fun k hk1 hk2 => by omega⟩
  | succ i ih =>
    intro j b hjb
    cases h : r.entry (i + 1) with
    | none =>
      rw [findLatestGameAt, h] at hjb
      obtain ⟨hjm, hje, hnone⟩ := ih j b hjb
      refine ⟨by omega, hje, fun k hk1 hk2 => ?_⟩
      rcases Nat.lt_or_ge k (i + 1) with hk' | hk'
      · exact hnone k hk1 (by omega)
      · have : k = i + 1 := by omega
        exact this ▸ h
    | some b0 =>
      rw [findLatestGameAt, h] at hjb
      obtain ⟨hj, hb⟩ : j = i + 1 ∧ b0 = b := by
        have := Option.some.inj hjb
        exact ⟨(Prod.mk.injEq _ _ _ _ ▸ this).1.symm, (Prod.mk.injEq _ _ _ _ ▸ this).2⟩
      subst hj; subst hb
      exact ⟨le_rfl, h, fun k hk1 hk2 => by omega⟩

lemma entry_some_findLatestGameAt (r : GameRegistry) (i b : Nat)
    (h : r.entry i = some b) : findLatestGameAt r i = some (i, b) := by
  cases i <;> simp [findLatestGameAt, h]

/-- Under monotonicity and a positive inclusion block, a probe computes an
`l2BlockNumber` below the inclusion block exactly when no index up to the
probed one holds a qualifying game; in particular a probe that returns no
entry behaves as "not yet qualifying". -/
lemma probeBlock_lt_iff (r : GameRegistry) (inc m : Nat) (hm : Mono r)
    (hinc : 1 ≤ inc) :
    probeBlock r m < inc ↔ ∀ k, k ≤ m → ¬ Qual r inc k := by
  cases hg : findLatestGameAt r m with
  | none =>
    have hall := (findLatestGameAt_eq_none r m).1 hg
    simp only [probeBlock, hg]
    constructor
    · rintro _ k hk ⟨b, hb, _⟩
      rw [hall k hk] at hb
      exact Option.noConfusion hb
    · intro _; omega
  | some g =>
    obtain ⟨hjm, hje, hnone⟩ := findLatestGameAt_eq_some r m g.1 g.2 hg
    simp only [probeBlock, hg]
    constructor
    · rintro hlt k hk ⟨b, hb, hib⟩
      rcases le_or_lt k g.1 with h | h
      · have := hm k g.1 b g.2 h hb hje
        omega
      · rw [hnone k h hk] at hb
        exact Option.noConfusion hb
    · intro hall
      by_contra hge
      exact hall g.1 hjm ⟨g.2, hje, by omega⟩

/-- Invariant-based correctness of the binary-search loop: given enough fuel,
no qualifying game below `lo`, and a qualifying game inside `[lo, hi]`, the
loop converges on the smallest qualifying index. -/
lemma searchGo_spec (r : GameRegistry) (inc : Nat) (hm : Mono r)
    (hinc : 1 ≤ inc) :
    ∀ fuel lo hi, hi - lo ≤ fuel →
      (∀ k, k < lo → ¬ Qual r inc k) →
      (∃ k, lo ≤ k ∧ k ≤ hi ∧ Qual r inc k) →
      Qual r inc (searchGo r inc fuel lo hi) ∧
        (∀ k, k < searchGo r inc fuel lo hi → ¬ Qual r inc k) ∧
        searchGo r inc fuel lo hi ≤ hi := by
  intro fuel
  induction fuel with
  | zero =>
    intro lo hi hfuel hlow hex
    obtain ⟨k, hk1, hk2, hkq⟩ := hex
    simp only [searchGo]
    have hkl : k = lo := by omega
    exact ⟨hkl ▸ hkq, hlow, by omega⟩
  | succ fuel ih =>
    intro lo hi hfuel hlow hex
    obtain ⟨k, hk1, hk2, hkq⟩ := hex
    simp only [searchGo]
    by_cases hlh : lo < hi
    · simp only [if_pos hlh]
      have hmid1 : lo ≤ (lo + hi) / 2 := by omega
      have hmid2 : (lo + hi) / 2 < hi := by omega
      by_cases hpb : probeBlock r ((lo + hi) / 2) < inc
      · simp only [if_pos hpb]
        have hall := (probeBlock_lt_iff r inc ((lo + hi) / 2) hm hinc).1 hpb
        apply ih
        · omega
        · exact fun k2 h2 => hall k2 (by omega)
        · refine ⟨k, ?_, hk2, hkq⟩
          have : ¬ k ≤ (lo + hi) / 2 := fun hle => hall k hle hkq
          omega
      · simp only [if_neg hpb]
        obtain ⟨j, bj, hg, hbj⟩ :
            ∃ j bj, findLatestGameAt r ((lo + hi) / 2) = some (j, bj) ∧ inc ≤ bj := by
          cases hg : findLatestGameAt r ((lo + hi) / 2) with
          | none =>
            exfalso
            apply hpb
            simp only [probeBlock, hg]
            omega
          | some g =>
            obtain ⟨j0, b0⟩ := g
            refine ⟨j0, b0, rfl, ?_⟩
            simp only [probeBlock, hg] at hpb
            omega
        obtain ⟨hjm, hje, -⟩ := findLatestGameAt_eq_some r ((lo + hi) / 2) j bj hg
        have hjq : Qual r inc j := ⟨bj, hje, hbj⟩
        have hjlo : lo ≤ j := by
          by_contra h
          exact hlow j (by omega) hjq
        obtain ⟨h1, h2, h3⟩ :=
          ih lo ((lo + hi) / 2) (by omega) hlow ⟨j, hjlo, hjm, hjq⟩
        exact ⟨h1, h2, by omega⟩
    · simp only [if_neg hlh]
      have hkl : k = lo := by omega
      exact ⟨hkl ▸ hkq, hlow, by omega⟩

lemma mono_ofList (l : List Nat) (hs : List.Sorted (· ≤ ·) l) :
    Mono (ofList l) := by
  intro i j bi bj hij hi hj
  simp only [ofList] at hi hj
  obtain ⟨hi', hbi⟩ := List.get?_eq_some.1 hi
  obtain ⟨hj', hbj⟩ := List.get?_eq_some.1 hj
  subst hbi; subst hbj
  exact hs.rel_get_of_le (show (⟨i, hi'⟩ : Fin l.length) ≤ ⟨j, hj'⟩ from hij)

/-- C1, amended: for every registry with a monotonic assignment of proposed
L2 blocks to respected-type games, every inclusion block at least 1, and
every index `s < gameCount` holding the smallest qualifying game (proposed
block at least the inclusion block, all lower respected-type games strictly
below it), `FindEarliestGame` returns exactly that game, treating probes with
no entry as not-yet-qualifying and narrowing upward. -/
theorem findEarliestGame_min (r : GameRegistry) (inc s b : Nat)
    (hm : Mono r) (hinc : 1 ≤ inc) (hs : s < r.gameCount)
    (hb : r.entry s = some b) (hqb : inc ≤ b)
    (hmin : ∀ j bj, j < s → r.entry j = some bj → bj < inc) :
    FindEarliestGame r inc = .ok (s, b) := by
  have hgc : r.gameCount ≠ 0 := by omega
  obtain ⟨hq, hlow, hle⟩ :=
    searchGo_spec r inc hm hinc (r.gameCount - 1) 0 (r.gameCount - 1)
      (by omega) (fun k hk => absurd hk (Nat.not_lt_zero k))
      ⟨s, Nat.zero_le s, by omega, ⟨b, hb, hqb⟩⟩
  have heq : convergedIndex r inc = s := by
    rcases lt_trichotomy (convergedIndex r inc) s with h | h | h
    · obtain ⟨bt, hbt, hibt⟩ := (hq : Qual r inc (convergedIndex r inc))
      exact absurd hibt (by have := hmin _ bt h hbt; omega)
    · exact h
    · exact absurd (⟨b, hb, hqb⟩ : Qual r inc s)
        ((hlow : ∀ k, k < convergedIndex r inc → ¬ Qual r inc k) s h)
  unfold FindEarliestGame
  rw [if_neg hgc, heq, entry_some_findLatestGameAt r s b hb]

/-- C1 counterexample, refuting the claim as stated: (i) when no
respected-type game has a proposed block at least the inclusion block (one
game with block 50, inclusion block 100), `FindEarliestGame` still returns
the last game instead of failing or returning a qualifying game; (ii) when
the inclusion block is 0 and the respected-type population is sparse, a probe
with no entry is treated as qualifying (0 >= 0), the interval narrows
downward, and the search errors even though a qualifying game exists at
index 1. -/
theorem findEarliestGame_claim_false :
    FindEarliestGame (ofList [50]) 100 = .ok (0, 50) ∧ 50 < 100 ∧
      FindEarliestGame ⟨2, fun i => if i = 1 then some 5 else none⟩ 0 =
        .error "no games found" ∧
      (fun i => if i = 1 then some 5 else none : Nat → Option Nat) 1 = some 5 :=
  ⟨rfl, by omega, rfl, rfl⟩

/-- C1 witness: the claim's own scenario — proposed blocks
`[50, 80, 95, 110, 130]` at indices 0..4, inclusion block 100 — where the
amended theorem yields the game at index 3 with block 110. -/
theorem findEarliestGame_min_witness :
    Mono (ofList [50, 80, 95, 110, 130]) ∧
      FindEarliestGame (ofList [50, 80, 95, 110, 130]) 100 = .ok (3, 110) := by
  have hm : Mono (ofList [50, 80, 95, 110, 130]) := mono_ofList _ (by decide)
  refine ⟨hm, findEarliestGame_min _ 100 3 110 hm (by omega) (by decide) rfl
    (by omega) ?_⟩
  intro j bj hj hbj
  interval_cases j <;> injection hbj with h <;> omega

/-- C2: with an empty registry `FindEarliestGame` fails with the
`"no games"` error for every probe oracle (so without probing any game), and
with a non-empty registry whose final probe at the converged index returns no
entry it fails with the `"no games found"` error; in neither case is a game
returned. -/
theorem findEarliestGame_failure_modes :
    (∀ e inc, FindEarliestGame ⟨0, e⟩ inc = .error "no games") ∧
      (∀ r inc, r.gameCount ≠ 0 →
        findLatestGameAt r (convergedIndex r inc) = none →
        FindEarliestGame r inc = .error "no games found") := by
  constructor
  · intro e inc; rfl
  · intro r inc hgc hnone
    unfold FindEarliestGame
    rw [if_neg hgc, hnone]

/-- C2 witness: an empty registry fails with `"no games"`, and a singleton
registry holding no respected-type game fails with `"no games found"`. -/
theorem findEarliestGame_failure_modes_witness :
    FindEarliestGame ⟨0, fun _ => none⟩ 7 = .error "no games" ∧
      FindEarliestGame ⟨1, fun _ => none⟩ 1 = .error "no games found" :=
  ⟨findEarliestGame_failure_modes.1 _ 7,
    findEarliestGame_failure_modes.2 ⟨1, fun _ => none⟩ 1 (by decide) rfl⟩

/-! ## Top-level orchestration policy (main.go, `main`) -/

/-- A call against the `WithdrawHelper` interface made by `main`. -/
inductive Call
  | isProofFinalized
  | checkIfProvable
  | getProvenWithdrawalTime
  | proveWithdrawal
  | finalizeWithdrawal
deriving DecidableEq, Repr

/-- Terminal outcome of a successful invocation of `main`. -/
inductive Outcome
  | alreadyFinalized
  | proven
  | finalized
deriving DecidableEq, Repr

/-- Oracle giving the result each `WithdrawHelper` method would return on
this invocation; chain state does not change during the single run. -/
structure Helper where
  isProofFinalized : Except String Bool
  checkIfProvable : Except String Unit
  getProvenWithdrawalTime : Except String Nat
  proveWithdrawal : Except String Unit
  finalizeWithdrawal : Except String Unit

/-- Embeds the orchestration tail of `main` (main.go): query finalization,
stop successfully when already finalized, otherwise require
`CheckIfProvable`, read the proven timestamp, and prove when it is 0 or
finalize otherwise.  Returns the ordered list of helper calls made together
with the invocation's result; a `log.Crit` is modelled as an error carrying
the logged message. -/
def runMain (w : Helper) : List Call × Except String Outcome :=
  match w.isProofFinalized with
  | .error e =>
    ([.isProofFinalized],
      .error ("Error querying withdrawal finalization status: " ++ e))
  | .ok true => ([.isProofFinalized], .ok .alreadyFinalized)
  | .ok false =>
    match w.checkIfProvable with
    | .error e =>
      ([.isProofFinalized, .checkIfProvable],
        .error ("Withdrawal is not provable: " ++ e))
    | .ok () =>
      match w.getProvenWithdrawalTime with
      | .error e =>
        ([.isProofFinalized, .checkIfProvable, .getProvenWithdrawalTime],
          .error ("Error querying withdrawal proof: " ++ e))
      | .ok proofTime =>
        if proofTime = 0 then
          match w.proveWithdrawal with
          | .error e =>
            ([.isProofFinalized, .checkIfProvable, .getProvenWithdrawalTime,
                .proveWithdrawal],
              .error ("Error proving withdrawal: " ++ e))
          | .ok () =>
            ([.isProofFinalized, .checkIfProvable, .getProvenWithdrawalTime,
                .proveWithdrawal],
              .ok .proven)
        else
          match w.finalizeWithdrawal with
          | .error e =>
            ([.isProofFinalized, .checkIfProvable, .getProvenWithdrawalTime,
                .finalizeWithdrawal],
              .error ("Error completing withdrawal: " ++ e))
          | .ok () =>
            ([.isProofFinalized, .checkIfProvable, .getProvenWithdrawalTime,
                .finalizeWithdrawal],
              .ok .finalized)

/-- The L1 state-changing calls are `ProveWithdrawal` and
`FinalizeWithdrawal`; everything else is a read. -/
def isStateChanging (c : Call) : Bool :=
  match c with
  | .proveWithdrawal => true
  | .finalizeWithdrawal => true
  | _ => false

/-- Number of L1 state-changing transactions a call trace submits. -/
def stateChangingCount (t : List Call) : Nat :=
  (t.filter isStateChanging).length

/-- C3 counterexample, refuting the claim as stated: on an invocation where
the withdrawal is not finalized and `GetProvenWithdrawalTime` returns the
nonzero timestamp 7, `main` nevertheless invokes `CheckIfProvable` — and does
so before `Finalize` — contradicting "CheckProvable() is required (and
invoked) only on the path where ProvenAt() == 0, not before Finalize()". -/
theorem runMain_claim_false :
    runMain ⟨.ok false, .ok (), .ok 7, .ok (), .ok ()⟩ =
      ([.isProofFinalized, .checkIfProvable, .getProvenWithdrawalTime,
          .finalizeWithdrawal],
        .ok .finalized) ∧
      Call.checkIfProvable ∈
        (runMain ⟨.ok false, .ok (), .ok 7, .ok (), .ok ()⟩).1 :=
  ⟨rfl, by decide⟩

/-- C3, amended: the orchestrator's policy, run once per invocation, is: if
`IsFinalized()` is true, stop with success and no further action; else
require `CheckIfProvable()` to pass (it is invoked on every non-finalized
invocation, before the proven timestamp is read); then if `ProvenAt() == 0`
call `Prove()` and stop, else call `Finalize()`. -/
theorem runMain_policy (w : Helper) :
    (w.isProofFinalized = .ok true →
      runMain w = ([.isProofFinalized], .ok .alreadyFinalized)) ∧
      (∀ e, w.isProofFinalized = .ok false → w.checkIfProvable = .error e →
        runMain w = ([.isProofFinalized, .checkIfProvable],
          .error ("Withdrawal is not provable: " ++ e))) ∧
      (w.isProofFinalized = .ok false → w.checkIfProvable = .ok () →
        w.getProvenWithdrawalTime = .ok 0 → w.proveWithdrawal = .ok () →
        runMain w = ([.isProofFinalized, .checkIfProvable,
            .getProvenWithdrawalTime, .proveWithdrawal],
          .ok .proven)) ∧
      (∀ t, w.isProofFinalized = .ok false → w.checkIfProvable = .ok () →
        w.getProvenWithdrawalTime = .ok t → t ≠ 0 →
        w.finalizeWithdrawal = .ok () →
        runMain w = ([.isProofFinalized, .checkIfProvable,
            .getProvenWithdrawalTime, .finalizeWithdrawal],
          .ok .finalized)) := by
  refine ⟨?_, ?_, ?_, ?_⟩
  · intro h1
    simp [runMain, h1]
  · intro e h1 h2
    simp [runMain, h1, h2]
  · intro h1 h2 h3 h4
    simp [runMain, h1, h2, h3, h4]
  · intro t h1 h2 h3 h4 h5
    simp [runMain, h1, h2, h3, if_neg h4, h5]

/-- C3 witness: the amended policy evaluated on concrete oracles for the
already-finalized path and the finalize path. -/
theorem runMain_policy_witness :
    runMain ⟨.ok true, .ok (), .ok 0, .ok (), .ok ()⟩ =
      ([.isProofFinalized], .ok .alreadyFinalized) ∧
      runMain ⟨.ok false, .ok (), .ok 9, .ok (), .ok ()⟩ =
        ([.isProofFinalized, .checkIfProvable, .getProvenWithdrawalTime,
            .finalizeWithdrawal],
          .ok .finalized) :=
  ⟨(runMain_policy ⟨.ok true, .ok (), .ok 0, .ok (), .ok ()⟩).1 rfl,
    (runMain_policy ⟨.ok false, .ok (), .ok 9, .ok (), .ok ()⟩).2.2.2 9 rfl rfl
      rfl (by omega) rfl⟩

/-- C4: every invocation of the orchestrator submits at most one L1
state-changing transaction, never both a prove and a finalize; and when
`IsFinalized()` is true the invocation makes zero state-changing calls and
reports success immediately. -/
theorem runMain_at_most_one_tx (w : Helper) :
    stateChangingCount (runMain w).1 ≤ 1 ∧
      ¬(Call.proveWithdrawal ∈ (runMain w).1 ∧
        Call.finalizeWithdrawal ∈ (runMain w).1) ∧
      (w.isProofFinalized = .ok true →
        stateChangingCount (runMain w).1 = 0 ∧
          (runMain w).2 = .ok .alreadyFinalized) := by
  obtain ⟨f, c, g, p, fin⟩ := w
  cases f with
  | error e => simp [runMain, stateChangingCount, isStateChanging]
  | ok b =>
    cases b with
    | true => simp [runMain, stateChangingCount, isStateChanging]
    | false =>
      have hne : (Except.ok false : Except String Bool) ≠ .ok true := by
        simp
      cases c with
      | error e => simp [runMain, stateChangingCount, isStateChanging, hne]
      | ok u =>
        cases u
        cases g with
        | error e => simp [runMain, stateChangingCount, isStateChanging, hne]
        | ok t =>
          by_cases ht : t = 0
          · subst ht
            cases p with
            | error e =>
              simp [runMain, stateChangingCount, isStateChanging, hne]
            | ok u =>
              cases u
              simp [runMain, stateChangingCount, isStateChanging, hne]
          · cases fin with
            | error e =>
              simp [runMain, stateChangingCount, isStateChanging, if_neg ht,
                hne]
            | ok u =>
              cases u
              simp [runMain, stateChangingCount, isStateChanging, if_neg ht,
                hne]

/-- C4 witness: with the withdrawal already finalized, the run makes zero
state-changing calls and reports success. -/
theorem runMain_at_most_one_tx_witness :
    stateChangingCount
        (runMain ⟨.ok true, .ok (), .ok 0, .ok (), .ok ()⟩).1 = 0 ∧
      (runMain ⟨.ok true, .ok (), .ok 0, .ok (), .ok ()⟩).2 =
        .ok .alreadyFinalized :=
  (runMain_at_most_one_tx ⟨.ok true, .ok (), .ok 0, .ok (), .ok ()⟩).2.2 rfl

/-! ## Gas configuration validation (main.go) -/

/-- The parsed gas configuration of main.go: `none` means the corresponding
flag was not supplied.  `big.Int` values are modelled as integers and the
`float64` multiplier as a rational. -/
structure GasConfig where
  gasLimit : Nat
  gasPrice : Option Int
  maxFeePerGas : Option Int
  maxPriorityFee : Option Int
  gasMultiplier : ℚ
  maxGasPrice : Option Int

/-- A declared optional price strictly exceeds the cap. -/
def exceedsCap (v : Option Int) (cap : Int) : Bool :=
  match v with
  | some x => cap < x
  | none => false

/-- Embeds the gas-configuration validation of `main` (main.go, the checks
run after flag parsing and before any client is dialed): legacy/EIP-1559
mutual exclusion, the both-or-neither EIP-1559 rule, the multiplier lower
bound, and the safety-cap checks on explicitly declared prices.  Each
`log.Crit` is modelled as an error carrying the logged message. -/
def validateGasConfig (c : GasConfig) : Except String Unit :=
  if c.gasPrice.isSome ∧ (c.maxFeePerGas.isSome ∨ c.maxPriorityFee.isSome) then
    .error "Cannot use --gas-price with EIP-1559 flags (--max-fee-per-gas, --max-priority-fee)"
  else if c.maxFeePerGas.isSome ≠ c.maxPriorityFee.isSome then
    .error "Both --max-fee-per-gas and --max-priority-fee must be set for EIP-1559 transactions"
  else if c.gasMultiplier < 1 then
    .error "--gas-multiplier must be >= 1.0"
  else
    match c.maxGasPrice with
    | none => .ok ()
    | some cap =>
      if exceedsCap c.gasPrice cap then
        .error "--gas-price exceeds --max-gas-price safety cap"
      else if exceedsCap c.maxFeePerGas cap then
        .error "--max-fee-per-gas exceeds --max-gas-price safety cap"
      else .ok ()

/-- Embeds the sequencing of `main`: gas-configuration validation runs
first, and only when it passes are the chain clients used and the
orchestration of `runMain` performed; a validation failure therefore
produces an empty call trace. -/
def runWithConfig (c : GasConfig) (w : Helper) :
    List Call × Except String Outcome :=
  match validateGasConfig c with
  | .error e => ([], .error e)
  | .ok () => runMain w

/-- C5: gas-configuration validation rejects, before any chain call, every
configuration where (a) the legacy gas price and some EIP-1559 field are both
set, or (b) exactly one of max-fee-per-gas / max-priority-fee is set, or
(c) the gas multiplier is strictly below 1.0. -/
theorem validateGasConfig_rejects (c : GasConfig) (w : Helper)
    (h : (c.gasPrice.isSome = true ∧
        (c.maxFeePerGas.isSome = true ∨ c.maxPriorityFee.isSome = true)) ∨
      (c.maxFeePerGas.isSome ≠ c.maxPriorityFee.isSome) ∨
      c.gasMultiplier < 1) :
    (runWithConfig c w).1 = [] ∧
      ∃ e, (runWithConfig c w).2 = .error e := by
  have hval : ∃ e, validateGasConfig c = .error e := by
    cases hv : validateGasConfig c with
    | error e => exact ⟨e, rfl⟩
    | ok u =>
      exfalso
      unfold validateGasConfig at hv
      split at hv
      · exact Except.noConfusion hv
      · split at hv
        · exact Except.noConfusion hv
        · split at hv
          · exact Except.noConfusion hv
          · rename_i h1 h2 h3
            simp only [not_and_or, not_or] at h1
            rcases h with ha | hb | hc
            · tauto
            · exact h2 hb
            · exact h3 hc
  obtain ⟨e, he⟩ := hval
  unfold runWithConfig
  rw [he]
  exact ⟨rfl, e, rfl⟩

/-- C5 witness: a configuration with both the legacy price and an EIP-1559
fee declared is rejected with an empty call trace. -/
theorem validateGasConfig_rejects_witness :
    (runWithConfig ⟨0, some 5, some 6, some 7, 1, none⟩
        ⟨.ok true, .ok (), .ok 0, .ok (), .ok ()⟩).1 = [] ∧
      ∃ e, (runWithConfig ⟨0, some 5, some 6, some 7, 1, none⟩
          ⟨.ok true, .ok (), .ok 0, .ok (), .ok ()⟩).2 = .error e :=
  validateGasConfig_rejects ⟨0, some 5, some 6, some 7, 1, none⟩
    ⟨.ok true, .ok (), .ok 0, .ok (), .ok ()⟩ (.inl ⟨rfl, .inl rfl⟩)

/-- C6: when a max-gas-price safety cap is configured and an explicitly
declared legacy gas price or max-fee-per-gas exceeds it, the invocation
fails with an error before any chain call is made (the call trace is empty),
so no transaction priced above the cap is ever broadcast. -/
theorem maxGasPrice_fail_closed (c : GasConfig) (w : Helper) (cap : Int)
    (hcap : c.maxGasPrice = some cap)
    (h : (∃ p, c.gasPrice = some p ∧ cap < p) ∨
      (∃ f, c.maxFeePerGas = some f ∧ cap < f)) :
    (runWithConfig c w).1 = [] ∧
      ∃ e, (runWithConfig c w).2 = .error e := by
  have hval : ∃ e, validateGasConfig c = .error e := by
    cases hv : validateGasConfig c with
    | error e => exact ⟨e, rfl⟩
    | ok u =>
      exfalso
      unfold validateGasConfig at hv
      split at hv
      · exact Except.noConfusion hv
      · split at hv
        · exact Except.noConfusion hv
        · split at hv
          · exact Except.noConfusion hv
          · split at hv
            · rename_i heq
              rw [hcap] at heq
              exact Option.noConfusion heq
            · rename_i cap' heq
              rw [hcap] at heq
              have hc : cap' = cap := (Option.some.inj heq).symm
              subst hc
              split at hv
              · exact Except.noConfusion hv
              · split at hv
                · exact Except.noConfusion hv
                · rename_i hx hy
                  rcases h with ⟨p, hp, hlt⟩ | ⟨f, hf, hlt⟩
                  · exact hx (by simp [exceedsCap, hp, hlt])
                  · exact hy (by simp [exceedsCap, hf, hlt])
  obtain ⟨e, he⟩ := hval
  unfold runWithConfig
  rw [he]
  exact ⟨rfl, e, rfl⟩

/-- C6 witness: the claim's scenario — legacy gas price 100 with safety cap
50 — is rejected with an empty call trace. -/
theorem maxGasPrice_fail_closed_witness :
    (runWithConfig ⟨0, some 100, none, none, 1, some 50⟩
        ⟨.ok true, .ok (), .ok 0, .ok (), .ok ()⟩).1 = [] ∧
      ∃ e, (runWithConfig ⟨0, some 100, none, none, 1, some 50⟩
          ⟨.ok true, .ok (), .ok 0, .ok (), .ok ()⟩).2 = .error e :=
  maxGasPrice_fail_closed ⟨0, some 100, none, none, 1, some 50⟩
    ⟨.ok true, .ok (), .ok 0, .ok (), .ok ()⟩ 50 rfl
    (.inl ⟨100, rfl, by omega⟩)

/-! ## Gas estimation with the multiplier
(withdraw/utils.go `prepareGasOpts`, and the inline multiplier blocks of
`FPWithdrawer.ProveWithdrawal` / `FPWithdrawer.FinalizeWithdrawal` in
withdraw/fpwithdraw.go) -/

/-- The fields of `bind.TransactOpts` the gas-limit logic reads or writes. -/
structure TransactOpts where
  gasLimit : Nat
  noSend : Bool
deriving DecidableEq, Repr

/-- Result of a non-broadcasting (`NoSend`) simulation of the intended
call: the transaction whose `Gas()` is the estimated gas usage. -/
structure SimOutcome where
  gas : Nat
deriving DecidableEq, Repr

/-- Embeds `uint64(float64(gas) * gasMultiplier)`: the product of the
estimated gas and the multiplier, rounded down to an integer (the `float64`
multiplier is modelled as a rational). -/
def mulFloor (g : Nat) (m : ℚ) : Nat := (⌊(g : ℚ) * m⌋).toNat

/-- Embeds `prepareGasOpts` (withdraw/utils.go): resets the gas limit to the
user-declared value, simulates when dry-run is requested or a multiplier
above 1.0 must be applied with no explicit limit, and scales the simulated
gas by the multiplier.  Returns the updated options, the simulated
transaction when one was produced, and the number of simulation calls
performed. -/
def prepareGasOpts (opts : TransactOpts) (userGasLimit : Nat)
    (gasMultiplier : ℚ) (dryRun : Bool)
    (simulate : TransactOpts → Except String SimOutcome) :
    Except String (TransactOpts × Option SimOutcome × Nat) :=
  let opts := { opts with gasLimit := userGasLimit }
  if dryRun ∨ (1 < gasMultiplier ∧ userGasLimit = 0) then
    match simulate { opts with noSend := true } with
    | .error e => .error ("failed to simulate transaction: " ++ e)
    | .ok sim =>
      let opts :=
        if 1 < gasMultiplier ∧ userGasLimit = 0 then
          { opts with gasLimit := mulFloor sim.gas gasMultiplier }
        else opts
      .ok (opts, some sim, 1)
  else .ok (opts, none, 0)

/-- Embeds the inline gas-multiplier block shared verbatim by
`FPWithdrawer.ProveWithdrawal` and `FPWithdrawer.FinalizeWithdrawal`
(withdraw/fpwithdraw.go): when the multiplier exceeds 1.0 and the current
`Opts.GasLimit` is 0, estimate gas with a `NoSend` copy of the options and
store the scaled estimate back into the shared options; otherwise leave the
options untouched.  Returns the updated options and the number of
simulation calls performed. -/
def applyGasMultiplier (opts : TransactOpts) (gasMultiplier : ℚ)
    (simulate : TransactOpts → Except String SimOutcome) :
    Except String (TransactOpts × Nat) :=
  if 1 < gasMultiplier ∧ opts.gasLimit = 0 then
    match simulate { opts with noSend := true } with
    | .error e => .error ("failed to estimate gas: " ++ e)
    | .ok sim =>
      .ok ({ opts with gasLimit := mulFloor sim.gas gasMultiplier }, 1)
  else .ok (opts, 0)

/-- C7: a gas multiplier equal to 1.0 never triggers a simulation (in the
inline submission paths, and in `prepareGasOpts` outside dry-run mode); a
multiplier above 1.0 together with gas limit 0 triggers exactly one
non-broadcasting simulation whose gas usage, multiplied by the multiplier
and rounded down, becomes the gas limit; and an explicitly declared gas
limit is used verbatim with the multiplier ignored and no simulation. -/
theorem gasMultiplier_simulation (opts : TransactOpts) (m : ℚ)
    (simulate : TransactOpts → Except String SimOutcome) (sim : SimOutcome)
    (ugl : Nat) :
    (applyGasMultiplier opts 1 simulate = .ok (opts, 0)) ∧
      (prepareGasOpts opts ugl 1 false simulate =
        .ok ({ opts with gasLimit := ugl }, none, 0)) ∧
      (1 < m → opts.gasLimit = 0 →
        simulate { opts with noSend := true } = .ok sim →
        applyGasMultiplier opts m simulate =
          .ok ({ opts with gasLimit := mulFloor sim.gas m }, 1)) ∧
      (1 < m →
        simulate { opts with gasLimit := 0, noSend := true } = .ok sim →
        prepareGasOpts opts 0 m false simulate =
          .ok ({ opts with gasLimit := mulFloor sim.gas m }, some sim, 1)) ∧
      (0 < ugl →
        prepareGasOpts opts ugl m false simulate =
          .ok ({ opts with gasLimit := ugl }, none, 0)) ∧
      (0 < opts.gasLimit → applyGasMultiplier opts m simulate =
        .ok (opts, 0)) := by
  refine ⟨?_, ?_, ?_, ?_, ?_, ?_⟩
  · have : ¬((1 : ℚ) < 1 ∧ opts.gasLimit = 0) := by
      rintro ⟨h, -⟩
      exact absurd h (by norm_num)
    rw [applyGasMultiplier, if_neg this]
  · simp only [prepareGasOpts]
    rw [if_neg (by simp)]
  · intro hm hgl hsim
    rw [applyGasMultiplier, if_pos ⟨hm, hgl⟩, hsim]
  · intro hm hsim
    simp [prepareGasOpts, hsim, hm]
  · intro hugl
    have : ¬(False ∨ (1 < m ∧ ugl = 0)) := by
      rintro (h | ⟨-, h⟩)
      · exact h
      · omega
    simp only [prepareGasOpts]
    rw [if_neg (by simpa using this)]
  · intro hgl
    rw [applyGasMultiplier, if_neg (by rintro ⟨-, h⟩; omega)]

/-- C7 witness: multiplier 2 with gas limit 0 simulates once (estimated gas
100, resulting limit 200); multiplier 1 and an explicit limit of 7 simulate
zero times. -/
theorem gasMultiplier_simulation_witness :
    applyGasMultiplier ⟨0, false⟩ 2 (fun _ => .ok ⟨100⟩) =
        .ok (⟨mulFloor 100 2, false⟩, 1) ∧
      mulFloor 100 2 = 200 ∧
      applyGasMultiplier ⟨0, false⟩ 1 (fun _ => .ok ⟨100⟩) =
        .ok (⟨0, false⟩, 0) ∧
      prepareGasOpts ⟨0, false⟩ 7 2 false (fun _ => .ok ⟨100⟩) =
        .ok (⟨7, false⟩, none, 0) :=
  ⟨(gasMultiplier_simulation ⟨0, false⟩ 2 (fun _ => .ok ⟨100⟩) ⟨100⟩
        0).2.2.1 (by norm_num) rfl rfl,
    by norm_num [mulFloor]; rfl,
    (gasMultiplier_simulation ⟨0, false⟩ 2 (fun _ => .ok ⟨100⟩) ⟨100⟩
        0).1,
    (gasMultiplier_simulation ⟨0, false⟩ 2 (fun _ => .ok ⟨100⟩) ⟨100⟩
        7).2.2.2.2.1 (by omega)⟩

/-- C8, amended: the `prepareGasOpts` helper resets the gas-limit field to
the user-declared value (0 or the explicit override) before re-estimating,
so its behaviour is independent of whatever gas limit a previous submission
left in the options; the inline multiplier blocks of
`FPWithdrawer.ProveWithdrawal` / `FPWithdrawer.FinalizeWithdrawal` do not
perform this reset. -/
theorem prepareGasOpts_resets (g1 g2 : Nat) (ns : Bool) (ugl : Nat) (m : ℚ)
    (dryRun : Bool) (simulate : TransactOpts → Except String SimOutcome) :
    prepareGasOpts ⟨g1, ns⟩ ugl m dryRun simulate =
      prepareGasOpts ⟨g2, ns⟩ ugl m dryRun simulate := rfl

/-- C8 counterexample, refuting the claim as stated: with user-declared gas
limit 0 and multiplier 2, a prove submission stores the scaled estimate 200
into the shared options; the subsequent finalize submission in the same run
then sees a nonzero gas limit, performs no reset and no re-estimation, and
submits with the stale limit 200 instead of the limit 300 that resetting to
the user-declared 0 and re-estimating (gas 150, multiplier 2) would give. -/
theorem inlineGas_stale_carry_over :
    applyGasMultiplier ⟨0, false⟩ 2 (fun _ => .ok ⟨100⟩) =
        .ok (⟨200, false⟩, 1) ∧
      applyGasMultiplier ⟨200, false⟩ 2 (fun _ => .ok ⟨150⟩) =
        .ok (⟨200, false⟩, 0) ∧
      mulFloor 150 2 = 300 ∧ (200 : Nat) ≠ 300 := by
  have h1 : mulFloor 100 2 = 200 := by norm_num [mulFloor]; rfl
  have h2 : mulFloor 150 2 = 300 := by norm_num [mulFloor]; rfl
  refine ⟨?_, ?_, h2, by omega⟩
  · rw [applyGasMultiplier, if_pos ⟨by norm_num, rfl⟩]
    simp [h1]
  · rw [applyGasMultiplier, if_neg (by rintro ⟨-, h⟩; simp at h)]

/-! ## Confirmation wait loop (withdraw/utils.go, `waitForConfirmation`) -/

/-- What one receipt lookup (`client.TransactionReceipt`) can report:
the receipt is not yet available (`ethereum.NotFound`), some other transport
error occurred, or a receipt was found whose status may or may not be
`types.ReceiptStatusSuccessful`. -/
inductive PollResult
  | notFound
  | transportError (e : String)
  | found (success : Bool)

/-- The error message shared by `txBlock` and `waitForConfirmation` for a
receipt with a non-success status. -/
def receiptStatusErr : String := "unsuccessful withdrawal receipt status"

/-- The fixed sleep between polls, `time.After(5 * time.Second)`, in
seconds. -/
def pollIntervalSeconds : Nat := 5

/-- Embeds the polling loop of `waitForConfirmation` (withdraw/utils.go).
`poll i` is what the `i`-th receipt lookup reports, and `fuel` is the number
of 5-second sleeps the surrounding context deadline still permits (the
callers allot 5 minutes, i.e. 60 sleeps): not-found sleeps one interval and
retries until the deadline/cancellation fires; a found receipt with
non-success status is a terminal error; a found successful receipt returns
ok; any other lookup error is returned as is. -/
def waitForConfirmation (poll : Nat → PollResult) : Nat → Nat →
    Except String Unit
  | fuel, i =>
    match poll i with
    | .found true => .ok ()
    | .found false => .error receiptStatusErr
    | .transportError e => .error e
    | .notFound =>
      match fuel with
      | 0 => .error "context deadline exceeded"
      | f + 1 => waitForConfirmation poll f (i + 1)

/-- C9: the confirmation wait loop retries, after one fixed sleep interval
and subject to the remaining deadline budget, exactly when the receipt
lookup reports not-found; a receipt found with non-success status is a
terminal error (no retry); a successful receipt returns ok immediately; and
any other transport error is propagated immediately without retry. -/
theorem waitForConfirmation_cases (poll : Nat → PollResult) (fuel i : Nat)
    (e : String) :
    (poll i = .found true → waitForConfirmation poll fuel i = .ok ()) ∧
      (poll i = .found false →
        waitForConfirmation poll fuel i = .error receiptStatusErr) ∧
      (poll i = .transportError e →
        waitForConfirmation poll fuel i = .error e) ∧
      (poll i = .notFound →
        waitForConfirmation poll (fuel + 1) i =
          waitForConfirmation poll fuel (i + 1)) ∧
      (poll i = .notFound →
        waitForConfirmation poll 0 i = .error "context deadline exceeded") := by
  refine ⟨?_, ?_, ?_, ?_, ?_⟩ <;> intro h <;> cases fuel <;>
    simp only [waitForConfirmation, h]

/-- C9 witness: a receipt found reverted on the first poll is a terminal
error; a not-found first poll consumes one sleep from the budget and
retries; an exhausted budget with not-found is the deadline error. -/
theorem waitForConfirmation_cases_witness :
    waitForConfirmation (fun _ => .found false) 60 0 =
        .error receiptStatusErr ∧
      waitForConfirmation (fun _ => .notFound) 60 0 =
        waitForConfirmation (fun _ => .notFound) 59 1 ∧
      waitForConfirmation (fun _ => .notFound) 0 0 =
        .error "context deadline exceeded" ∧
      waitForConfirmation (fun _ => .found true) 60 0 = .ok () :=
  ⟨(waitForConfirmation_cases (fun _ => .found false) 60 0 "").2.1 rfl,
    (waitForConfirmation_cases (fun _ => .notFound) 59 0 "").2.2.2.1 rfl,
    (waitForConfirmation_cases (fun _ => .notFound) 0 0 "").2.2.2.2 rfl,
    (waitForConfirmation_cases (fun _ => .found true) 60 0 "").1 rfl⟩

/-! ## Provability pre-check
(withdraw/utils.go `txBlock`, withdraw/fpwithdraw.go `CheckIfProvable`) -/

/-- The fields of an L2 transaction receipt `txBlock` reads: whether the
status is `types.ReceiptStatusSuccessful`, and the including block number. -/
structure Receipt where
  statusSuccessful : Bool
  blockNumber : Nat
deriving DecidableEq, Repr

/-- The latest respected-type game `withdrawals.FindLatestGame` returns; its
proposed L2 block number is the first 32 bytes of its extra data. -/
structure LatestGame where
  l2BlockNumber : Nat
deriving DecidableEq, Repr

/-- Embeds `txBlock` (withdraw/utils.go): look up the withdrawal
transaction's L2 receipt, fail on a receipt whose status is not successful,
and otherwise return the including block number.  The receipt lookup's
result is the oracle argument. -/
def txBlock (receiptRes : Except String Receipt) : Except String Nat :=
  match receiptRes with
  | .error e => .error e
  | .ok rc =>
    if rc.statusSuccessful then .ok rc.blockNumber
    else .error receiptStatusErr

/-- Embeds `FPWithdrawer.CheckIfProvable` (withdraw/fpwithdraw.go): find the
withdrawal's L2 block via `txBlock`, find the latest respected-type game,
and require the latest proposed L2 block to be at least the withdrawal's
block.  The receipt lookup and the game lookup are oracle arguments. -/
def CheckIfProvable (receiptRes : Except String Receipt)
    (latestGameRes : Except String LatestGame) : Except String Unit :=
  match txBlock receiptRes with
  | .error e => .error ("error querying withdrawal tx block: " ++ e)
  | .ok wblock =>
    match latestGameRes with
    | .error e => .error ("failed to find latest game: " ++ e)
    | .ok g =>
      if g.l2BlockNumber < wblock then
        .error "the withdrawal cannot be proven yet"
      else .ok ()

/-- C10: when the withdrawal's L2 receipt exists but has a non-success
status, `txBlock` fails with the unsuccessful-receipt-status error and
`CheckIfProvable` fails with that error wrapped in its
querying-the-withdrawal-block context — for every result the
latest-game lookup could return, i.e. without the search for a qualifying
commitment ever influencing the outcome. -/
theorem checkIfProvable_reverted_receipt (rc : Receipt)
    (latestGameRes : Except String LatestGame)
    (h : rc.statusSuccessful = false) :
    txBlock (.ok rc) = .error receiptStatusErr ∧
      CheckIfProvable (.ok rc) latestGameRes =
        .error ("error querying withdrawal tx block: " ++ receiptStatusErr) := by
  have ht : txBlock (.ok rc) = .error receiptStatusErr := by
    simp [txBlock, h]
  exact ⟨ht, by simp [CheckIfProvable, ht]⟩

/-- C10 witness: a reverted withdrawal receipt (status non-success, block
42) makes the provability check fail with the wrapped
unsuccessful-receipt-status error even when a latest game at block 1000 is
available. -/
theorem checkIfProvable_reverted_receipt_witness :
    txBlock (.ok ⟨false, 42⟩) = .error receiptStatusErr ∧
      CheckIfProvable (.ok ⟨false, 42⟩) (.ok ⟨1000⟩) =
        .error ("error querying withdrawal tx block: " ++ receiptStatusErr) :=
  checkIfProvable_reverted_receipt ⟨false, 42⟩ (.ok ⟨1000⟩) rfl

end Withdrawer
